import Mathlib

/-!
Shallow embedding of the Plyxor client core (src/App.tsx, src/types.ts,
src/services/geminiService.ts and the ChatWindow component) together with
theorems about its room feed, matchmaking, demo fallback, translation
fallback and logout behaviour.
-/

namespace Plyxor

/-- User profile supplied at login (src/types.ts `UserProfile`). -/
structure UserProfile where
  username : String
  country : String
  state : String
deriving DecidableEq

/-- Reply reference optionally carried by a message (src/types.ts `Message.replyTo`). -/
structure ReplyRef where
  id : String
  sender : String
  text : String
deriving DecidableEq

/-- Chat message as held in client state (src/types.ts `Message`). -/
structure Message where
  id : String
  sender : String
  text : String
  timestamp : Nat
  isMe : Bool
  replyTo : Option ReplyRef := none
  readBy : List String := []
  translation : Option String := none
deriving DecidableEq

/-- The four fixed room kinds (src/types.ts `RoomType`). -/
inductive RoomType where
  | WORLD
  | COUNTRY
  | STATE
  | ONE_ON_ONE
deriving DecidableEq

/-- Client-local aggregate for one room (src/types.ts `ChatRoom`).
The one-on-one specific optional fields are carried on every room with
their default values, exactly as the reset code of `handleLogout` treats
them. -/
structure ChatRoom where
  name : String
  description : String
  messages : List Message
  unreadCount : Nat
  muted : Bool
  isSearching : Bool := false
  connectedPartner : Option UserProfile := none
  sessionId : Option String := none
deriving DecidableEq

/-- Character-list prefix test, the base of the JavaScript
`String.prototype.includes` model. -/
def listPre : List Char → List Char → Bool
  | [], _ => true
  | _ :: _, [] => false
  | a :: as, b :: bs => a == b && listPre as bs

/-- Character-list infix test. -/
def listHas (needle : List Char) : List Char → Bool
  | [] => needle.isEmpty
  | b :: bs => listPre needle (b :: bs) || listHas needle bs

/-- Model of JavaScript `hay.includes(needle)`. -/
def strIncludes (hay needle : String) : Bool :=
  listHas needle.toList hay.toList

/-- Ambient state captured by the broadcast room listener callback
(`activeRoomRef.current`, `userRef.current`, `blockedUsers`, and whether
the Notification API is present with permission granted) —
src/App.tsx:222-233. -/
structure ListenerCtx where
  activeRoom : RoomType
  selfUsername : String
  blockedUsers : List String
  notifGranted : Bool

/-- One `added` document change processed by the broadcast room listener
(src/App.tsx:202-248, `setupRoomListener`). Returns the new room state and
whether a mention alert (browser notification) was raised. -/
def broadcastStep (ctx : ListenerCtx) (roomType : RoomType) (room : ChatRoom)
    (m : Message) : ChatRoom × Bool :=
  if room.messages.any (fun x => x.id == m.id) then
    (room, false)
  else
    let isRoomActive := ctx.activeRoom == roomType
    let isBlocked := ctx.blockedUsers.contains m.sender
    let shouldNotify := !isRoomActive && !m.isMe && !room.muted && !isBlocked
    let mentionAlert := !m.isMe && !isBlocked
      && strIncludes m.text ("@" ++ ctx.selfUsername) && ctx.notifGranted
    ({ room with
        messages := room.messages ++ [m],
        unreadCount := if shouldNotify then room.unreadCount + 1 else room.unreadCount },
     mentionAlert)

/-- One `added` document change processed by the one-on-one session
listener (src/App.tsx:282-306): filter out any entry with the same id,
then append. -/
def oneOnOneStep (room : ChatRoom) (m : Message) : ChatRoom :=
  { room with messages := room.messages.filter (fun x => x.id != m.id) ++ [m] }

/-- Fold of the broadcast listener over a delivery sequence. -/
def runBroadcast (ctx : ListenerCtx) (roomType : RoomType) (ms : List Message)
    (room : ChatRoom) : ChatRoom :=
  ms.foldl (fun r m => (broadcastStep ctx roomType r m).1) room

/-- Fold of the one-on-one listener over a delivery sequence. -/
def runOneOnOne (ms : List Message) (room : ChatRoom) : ChatRoom :=
  ms.foldl oneOnOneStep room

/-- Rendered message list of the chat window
(ChatWindow `visibleMessages`, src/unnamed/part_000:66-73): drop blocked
senders; when a search query is set and the message has text, keep only
case-insensitive matches. -/
def visibleMessages (blockedUsers : List String) (searchQuery : String)
    (msgs : List Message) : List Message :=
  msgs.filter (fun msg =>
    if blockedUsers.contains msg.sender then false
    else if searchQuery != "" && msg.text != "" then
      strIncludes msg.text.toLower searchQuery.toLower
    else true)

/-- Non-decreasing timestamps on adjacent entries. -/
def sortedByTs : List Message → Bool
  | [] => true
  | [_] => true
  | a :: b :: rest => decide (a.timestamp ≤ b.timestamp) && sortedByTs (b :: rest)

/-! ## Matchmaking store model

Firestore collections touched by `startSearch` (src/App.tsx:386-461):
`queue` (one doc per searching user, keyed by uid), `users` (the session
pointer, keyed by uid) and — per the spec only — `sessions`. -/

/-- Document of the `queue` collection (src/App.tsx:451-455). -/
structure QueueEntry where
  userId : String
  timestamp : Nat
  profile : UserProfile
deriving DecidableEq

/-- Document of the `users` collection, the per-user session pointer
(src/App.tsx:404-408 and 430-439). -/
structure UserDoc where
  status : String
  sessionId : Option String := none
  partnerProfile : Option UserProfile := none
  profile : Option UserProfile := none
deriving DecidableEq

/-- A record of the `sessions` collection as the spec describes it; the
source never writes one. -/
structure SessionRec where
  sessionId : String
  participantIds : List String
deriving DecidableEq

/-- The slice of the store that matchmaking reads and writes. -/
structure Store where
  queue : List QueueEntry
  users : List (String × UserDoc)
  sessions : List SessionRec
deriving DecidableEq

/-- Firestore ordering for `orderBy(timestamp, asc)`: ascending timestamp,
ties broken by ascending document id. -/
def entryBefore (a b : QueueEntry) : Bool :=
  a.timestamp < b.timestamp
    || (a.timestamp == b.timestamp && decide (a.userId < b.userId))

/-- The single document returned by the
`query(queueRef, orderBy(timestamp, asc), limit(1))` read
(src/App.tsx:412-413): the minimum of the whole queue, with the own
entry of the caller included. -/
def earliestEntry : List QueueEntry → Option QueueEntry
  | [] => none
  | e :: es =>
    match earliestEntry es with
    | none => some e
    | some b => if entryBefore b e then some b else some e

/-- Firestore `transaction.update`: merge fields into an existing doc;
the whole transaction fails when the doc does not exist. -/
def updateUser (users : List (String × UserDoc)) (uid : String)
    (f : UserDoc → UserDoc) : Option (List (String × UserDoc)) :=
  if (users.lookup uid).isSome then
    some (users.map (fun p => if p.1 = uid then (p.1, f p.2) else p))
  else
    none

/-- Firestore `setDoc` / `transaction.set` on the `users` collection:
overwrite the doc, or create it. -/
def setUserDoc (users : List (String × UserDoc)) (uid : String)
    (d : UserDoc) : List (String × UserDoc) :=
  if (users.lookup uid).isSome then
    users.map (fun p => if p.1 = uid then (p.1, d) else p)
  else
    users ++ [(uid, d)]

/-- Firestore `transaction.set` on the `queue` collection, keyed by uid. -/
def setQueueEntry (q : List QueueEntry) (uid : String) (e : QueueEntry) :
    List QueueEntry :=
  if q.any (fun x => x.userId == uid) then
    q.map (fun x => if x.userId = uid then e else x)
  else
    q ++ [e]

/-- The field merge both matched-branch `transaction.update` calls write
into a session pointer (src/App.tsx:430-439). -/
def matchPointer (sid : String) (partner : UserProfile) (u : UserDoc) : UserDoc :=
  { u with status := "matched", sessionId := some sid,
           partnerProfile := some partner }

/-- The `setDoc` issued by `startSearch` before its transaction
(src/App.tsx:404-408): overwrite the session pointer of the caller with
status `searching`, null sessionId and the profile. -/
def startSearchPre (s : Store) (uid : String) (prof : UserProfile) : Store :=
  { s with users := (setUserDoc s.users uid
      { status := "searching", sessionId := none, partnerProfile := none,
        profile := some prof }) }

/-- Result of `enqueue` as the spec names it. -/
inductive Outcome where
  | matchedNow (partner : UserProfile) (sessionId : String)
  | waiting
deriving DecidableEq

/-- The candidate decision of the transaction body
(src/App.tsx:412-425): read the single earliest queue doc and accept it
iff its id differs from the caller (the truthiness guard on line 427 also
requires a nonempty id). -/
def txDecision (readState : Store) (uid : String) : Option QueueEntry :=
  match earliestEntry readState.queue with
  | some cand =>
    if cand.userId != uid && cand.userId != "" then some cand else none
  | none => none

/-- The write set of the matched branch (src/App.tsx:428-439): delete the
candidate queue doc, set the candidate pointer to matched with the caller
profile, set the caller pointer to matched with the candidate profile.
`none` when an updated pointer doc does not exist (the transaction
throws). -/
def applyMatchWrites (current : Store) (uid : String) (prof : UserProfile)
    (sid : String) (cand : QueueEntry) : Option Store :=
  match updateUser current.users cand.userId (matchPointer sid prof) with
  | none => none
  | some users1 =>
    match updateUser users1 uid (matchPointer sid cand.profile) with
    | none => none
    | some users2 =>
      some { current with
              queue := current.queue.filter (fun e => e.userId != cand.userId),
              users := users2 }

/-- The write set of the insert branch (src/App.tsx:450-456): set the
queue doc of the caller with the current timestamp. -/
def applyWaitWrites (current : Store) (uid : String) (prof : UserProfile)
    (now : Nat) : Store :=
  { current with queue := (setQueueEntry current.queue uid
      { userId := uid, timestamp := now, profile := prof }) }

/-- A commit of the enqueue transaction whose candidate was computed from
`readState` while its writes land on `current`. The source reads the
queue with a plain `getDocs` query inside `runTransaction`
(src/App.tsx:413), not with a transactional read, so Firestore validates
nothing at commit time and `readState` may be stale relative to
`current`. -/
def commitEnqueue (readState current : Store) (uid : String)
    (prof : UserProfile) (sid : String) (now : Nat) : Option Store :=
  match txDecision readState uid with
  | some cand => applyMatchWrites current uid prof sid cand
  | none => some (applyWaitWrites current uid prof now)

/-- The whole transaction of `startSearch` run in isolation
(src/App.tsx:410-457): candidate read and writes against the same state,
plus the outcome the caller observes. -/
def startSearchTx (s : Store) (uid : String) (prof : UserProfile)
    (sid : String) (now : Nat) : Option (Store × Outcome) :=
  match txDecision s uid with
  | some cand =>
    (applyMatchWrites s uid prof sid cand).map
      (fun st => (st, Outcome.matchedNow cand.profile sid))
  | none => some (applyWaitWrites s uid prof now, Outcome.waiting)

/-! ## Demo fallback (src/App.tsx:312-383 and 386-397) -/

/-- The synthetic partner of demo mode (src/App.tsx:319). -/
def demoPartner : UserProfile :=
  { username := "Plyxor Bot", country := "AI", state := "Virtual" }

/-- The fixed delay, in milliseconds, of the demo match timer
(src/App.tsx:347). -/
def demoMatchDelayMs : Nat := 1500

/-- What `startSearch` does to the one-on-one room before branching on
demo mode (src/App.tsx:389-392): mark searching and clear messages. -/
def startSearchRoomUpdate (room : ChatRoom) : ChatRoom :=
  { room with isSearching := true, messages := [] }

/-- The guard under which the demo simulation effect schedules the match
timer (src/App.tsx:317). -/
def demoMatchGuard (activeRoom : RoomType) (room : ChatRoom) : Bool :=
  activeRoom == RoomType.ONE_ON_ONE && room.isSearching
    && room.connectedPartner.isNone

/-- The first seed message injected on a demo match (src/App.tsx:328-335). -/
def demoSeedSystem (now : Nat) : Message :=
  { id := toString now, sender := "System",
    text := "Demo Mode: Simulating connection because Firebase Auth is not fully configured.",
    timestamp := now, isMe := false, readBy := [] }

/-- The second seed message injected on a demo match
(src/App.tsx:336-343). -/
def demoSeedBot (now : Nat) : Message :=
  { id := toString (now + 1), sender := "Plyxor Bot",
    text := "Hello! I am a simulated partner. You can chat with me while offline.",
    timestamp := now, isMe := false, readBy := [] }

/-- The body of the demo match timer (src/App.tsx:318-346): connect the
synthetic partner under a local session id and replace the messages with
the two seed messages. -/
def demoMatchFire (now : Nat) (room : ChatRoom) : ChatRoom :=
  { room with
      isSearching := false,
      connectedPartner := some demoPartner,
      sessionId := some "demo-session",
      messages := [demoSeedSystem now, demoSeedBot now] }

/-! ## Translation fallback (src/services/geminiService.ts:8-22) -/

/-- Outcome of the external `generateContent` call: an exception, or a
response whose `text` field may be absent or empty. -/
inductive TranslateCall where
  | ok (respText : Option String)
  | err
deriving DecidableEq

/-- `translateMessage` (src/services/geminiService.ts:8-22): return
`response.text || text`, and on any thrown error return `text`. -/
def translateMessage (call : TranslateCall) (text : String) : String :=
  match call with
  | .err => text
  | .ok respText =>
    match respText with
    | none => text
    | some s => if s == "" then text else s

/-! ## Logout (src/App.tsx:495-521) -/

/-- The per-room reset of `handleLogout` (src/App.tsx:506-516): spread the
previous room, then clear messages, unread count, partner, session id and
searching flag. -/
def resetRoom (r : ChatRoom) : ChatRoom :=
  { r with messages := [], unreadCount := 0, connectedPartner := none,
           sessionId := none, isSearching := false }

/-- The rooms state produced by `handleLogout` (src/App.tsx:505-520):
every room reset, then the country and state room names restored to their
defaults. -/
def handleLogoutRooms (prev : RoomType → ChatRoom) : RoomType → ChatRoom :=
  fun t =>
    match t with
    | RoomType.COUNTRY => { resetRoom (prev t) with name := "Country Chat" }
    | RoomType.STATE => { resetRoom (prev t) with name := "State Chat" }
    | _ => resetRoom (prev t)

/-! ## Concrete fixtures used by counterexamples and witnesses -/

/-- Sample profile. -/
def profA : UserProfile := ⟨"alice", "US", "CA"⟩

/-- Sample profile. -/
def profB : UserProfile := ⟨"bob", "US", "NY"⟩

/-- Sample profile. -/
def profC : UserProfile := ⟨"carol", "FR", "IDF"⟩

/-- Store with one other user waiting in the queue and both session
pointers present. -/
def c1Store : Store :=
  { queue := [⟨"B", 5, profB⟩],
    users := [("A", ⟨"searching", none, none, some profA⟩),
              ("B", ⟨"searching", none, none, some profB⟩)],
    sessions := [] }

/-- Store on which two enqueue transactions race: user A waits in the
queue, users B and C are about to enqueue concurrently. -/
def raceStore : Store :=
  { queue := [⟨"A", 1, profA⟩],
    users := [("A", ⟨"searching", none, none, some profA⟩),
              ("B", ⟨"searching", none, none, some profB⟩),
              ("C", ⟨"searching", none, none, some profC⟩)],
    sessions := [] }

/-- The store state after B and C both read `raceStore` with the
non-transactional `getDocs` query and then both commit, B first. -/
def raceFinal : Option Store :=
  (commitEnqueue raceStore raceStore "B" profB "S1" 10).bind
    (fun s1 => commitEnqueue raceStore s1 "C" profC "S2" 11)

/-- Store whose earliest queue entry belongs to the caller A while a
later entry of another user B exists. -/
def c3Store : Store :=
  { queue := [⟨"A", 1, profA⟩, ⟨"B", 2, profB⟩],
    users := [("A", ⟨"searching", none, none, some profA⟩),
              ("B", ⟨"searching", none, none, some profB⟩)],
    sessions := [] }

/-- An empty broadcast room. -/
def roomW : ChatRoom :=
  { name := "World Chat", description := "Connect with people from everywhere.",
    messages := [], unreadCount := 0, muted := false }

/-- Sample message, timestamp 100. -/
def msg1 : Message := { id := "m1", sender := "u1", text := "a", timestamp := 100, isMe := false }

/-- Sample message, timestamp 200. -/
def msg2 : Message := { id := "m2", sender := "u2", text := "b", timestamp := 200, isMe := false }

/-- Sample message, timestamp 150, written late by a slow client. -/
def msg3 : Message := { id := "m3", sender := "u3", text := "c", timestamp := 150, isMe := false }

/-- Listener context: foreground room is the one-on-one room, nobody
blocked. -/
def ctx0 : ListenerCtx :=
  { activeRoom := RoomType.ONE_ON_ONE, selfUsername := "alice",
    blockedUsers := [], notifGranted := false }

/-- Blocked message from bob mentioning alice (scenario C of the spec). -/
def msgBob : Message :=
  { id := "mb", sender := "bob", text := "@alice hi", timestamp := 300, isMe := false }

/-- Listener context in which bob is blocked and notifications are
permitted. -/
def ctxBlock : ListenerCtx :=
  { activeRoom := RoomType.ONE_ON_ONE, selfUsername := "alice",
    blockedUsers := ["bob"], notifGranted := true }

/-- Broadcast room already holding `msg1`. -/
def c4Room : ChatRoom := { roomW with messages := [msg1] }

/-- First subscription run: two messages in ascending timestamp order. -/
def run1 : List Message := [msg1, msg2]

/-- Re-subscription run: ascending timestamp order, redelivering the ids
already present and adding the late message `msg3`. -/
def run2 : List Message := [msg1, msg3, msg2]

/-! ## Theorems -/

/-- C10: handleLogout resets every room to empty messages, unread count
zero, no partner, no session id and not searching, restores the COUNTRY
and STATE room names to their defaults, and keeps the pre-logout muted
flag of every room. -/
theorem c10_logout_reset (prev : RoomType → ChatRoom) (t : RoomType) :
    (handleLogoutRooms prev t).messages = []
    ∧ (handleLogoutRooms prev t).unreadCount = 0
    ∧ (handleLogoutRooms prev t).connectedPartner = none
    ∧ (handleLogoutRooms prev t).sessionId = none
    ∧ (handleLogoutRooms prev t).isSearching = false
    ∧ (handleLogoutRooms prev t).muted = (prev t).muted
    ∧ (handleLogoutRooms prev RoomType.COUNTRY).name = "Country Chat"
    ∧ (handleLogoutRooms prev RoomType.STATE).name = "State Chat" := by
  cases t <;> simp [handleLogoutRooms, resetRoom]

/-- C9: translateMessage always returns a string; it returns the original
text whenever the external call throws or yields a missing or empty
result, and returns the nonempty translation otherwise, so no error ever
reaches the caller. -/
theorem c9_translate_fallback (call : TranslateCall) (text : String) :
    (call = TranslateCall.err → translateMessage call text = text)
    ∧ (call = TranslateCall.ok none → translateMessage call text = text)
    ∧ (call = TranslateCall.ok (some "") → translateMessage call text = text)
    ∧ (∀ s, s ≠ "" → call = TranslateCall.ok (some s) →
        translateMessage call text = s) := by
  refine ⟨?_, ?_, ?_, ?_⟩
  · rintro rfl; rfl
  · rintro rfl; rfl
  · rintro rfl; rfl
  · rintro s hs rfl
    simp [translateMessage, hs]

/-- Witness for C9 at concrete inputs. -/
theorem c9_translate_fallback_witness :
    translateMessage TranslateCall.err "hola" = "hola"
    ∧ translateMessage (TranslateCall.ok none) "hola" = "hola"
    ∧ translateMessage (TranslateCall.ok (some "")) "hola" = "hola"
    ∧ translateMessage (TranslateCall.ok (some "hi")) "hola" = "hi" :=
  ⟨(c9_translate_fallback TranslateCall.err "hola").1 rfl,
   (c9_translate_fallback (TranslateCall.ok none) "hola").2.1 rfl,
   (c9_translate_fallback (TranslateCall.ok (some "")) "hola").2.2.1 rfl,
   (c9_translate_fallback (TranslateCall.ok (some "hi")) "hola").2.2.2 "hi"
     (by decide) rfl⟩

/-- C8: in demo mode, a search marks the one-on-one room searching, the
match timer is scheduled (guard true when no partner is connected), its
delay is the fixed 1500 ms, and when it fires the room holds the
synthesized partner, the local session id, exactly the two seed messages,
and is no longer searching. -/
theorem c8_demo_match (room : ChatRoom) (now : Nat)
    (h : room.connectedPartner = none) :
    demoMatchGuard RoomType.ONE_ON_ONE (startSearchRoomUpdate room) = true
    ∧ demoMatchDelayMs = 1500
    ∧ (demoMatchFire now (startSearchRoomUpdate room)).isSearching = false
    ∧ (demoMatchFire now (startSearchRoomUpdate room)).connectedPartner
        = some demoPartner
    ∧ (demoMatchFire now (startSearchRoomUpdate room)).sessionId
        = some "demo-session"
    ∧ (demoMatchFire now (startSearchRoomUpdate room)).messages
        = [demoSeedSystem now, demoSeedBot now] := by
  refine ⟨?_, rfl, rfl, rfl, rfl, rfl⟩
  simp [demoMatchGuard, startSearchRoomUpdate, h]

/-- Witness for C8 on the empty room at time 7. -/
theorem c8_demo_match_witness :
    roomW.connectedPartner = none
    ∧ (demoMatchGuard RoomType.ONE_ON_ONE (startSearchRoomUpdate roomW) = true
       ∧ demoMatchDelayMs = 1500
       ∧ (demoMatchFire 7 (startSearchRoomUpdate roomW)).isSearching = false
       ∧ (demoMatchFire 7 (startSearchRoomUpdate roomW)).connectedPartner
           = some demoPartner
       ∧ (demoMatchFire 7 (startSearchRoomUpdate roomW)).sessionId
           = some "demo-session"
       ∧ (demoMatchFire 7 (startSearchRoomUpdate roomW)).messages
           = [demoSeedSystem 7, demoSeedBot 7]) :=
  ⟨rfl, c8_demo_match roomW 7 rfl⟩

/-- The message list produced by one broadcast listener step. -/
theorem broadcastStep_messages (ctx : ListenerCtx) (rt : RoomType)
    (room : ChatRoom) (m : Message) :
    (broadcastStep ctx rt room m).1.messages
      = if room.messages.any (fun x => x.id == m.id) then room.messages
        else room.messages ++ [m] := by
  unfold broadcastStep
  split <;> rfl

/-- The queue-membership test of the listener dedup agrees with id
membership. -/
theorem any_id_iff_mem (ms : List Message) (i : String) :
    ms.any (fun x => x.id == i) = true ↔ i ∈ ms.map (fun x => x.id) := by
  constructor
  · intro h
    rcases List.any_eq_true.mp h with ⟨x, hx, hbeq⟩
    exact List.mem_map.mpr ⟨x, hx, beq_iff_eq.mp hbeq⟩
  · intro h
    rcases List.mem_map.mp h with ⟨x, hx, hxi⟩
    exact List.any_eq_true.mpr ⟨x, hx, beq_iff_eq.mpr hxi⟩

/-- C7: a message from a blocked sender leaves the unread count unchanged,
raises no mention alert (whatever its text), still lands in Room.messages
(appended when fresh, so its id keeps counting for dedup and the cap), and
no message of that sender is ever in the rendered list. -/
theorem c7_blocked_sender (ctx : ListenerCtx) (rt : RoomType)
    (room : ChatRoom) (q : String) (m : Message)
    (hb : m.sender ∈ ctx.blockedUsers) :
    (broadcastStep ctx rt room m).1.unreadCount = room.unreadCount
    ∧ (broadcastStep ctx rt room m).2 = false
    ∧ m.id ∈ (broadcastStep ctx rt room m).1.messages.map (fun x => x.id)
    ∧ (m.id ∉ room.messages.map (fun x => x.id) →
        (broadcastStep ctx rt room m).1.messages = room.messages ++ [m])
    ∧ (∀ x ∈ visibleMessages ctx.blockedUsers q
          (broadcastStep ctx rt room m).1.messages, x.sender ≠ m.sender) := by
  have hcont : ctx.blockedUsers.contains m.sender = true := List.elem_iff.mpr hb
  refine ⟨?_, ?_, ?_, ?_, ?_⟩
  · unfold broadcastStep
    split
    · rfl
    · simp [hcont, hb]
  · unfold broadcastStep
    split
    · rfl
    · simp [hcont, hb]
  · rw [broadcastStep_messages]
    split
    · exact (any_id_iff_mem room.messages m.id).mp (by assumption)
    · simp
  · intro hfresh
    rw [broadcastStep_messages]
    split
    · exact absurd ((any_id_iff_mem room.messages m.id).mp (by assumption)) hfresh
    · rfl
  · intro x hx
    rcases List.mem_filter.mp hx with ⟨_, hpred⟩
    intro hsx
    rw [hsx] at hpred
    simp [hcont] at hpred
    exact hpred.1 hb

/-- Witness for C7: the blocked mention message from bob in a background
room (scenario C). -/
theorem c7_blocked_sender_witness :
    msgBob.sender ∈ ctxBlock.blockedUsers
    ∧ ((broadcastStep ctxBlock RoomType.WORLD c4Room msgBob).1.unreadCount
         = c4Room.unreadCount
       ∧ (broadcastStep ctxBlock RoomType.WORLD c4Room msgBob).2 = false
       ∧ msgBob.id ∈ (broadcastStep ctxBlock RoomType.WORLD c4Room
           msgBob).1.messages.map (fun x => x.id)
       ∧ (msgBob.id ∉ c4Room.messages.map (fun x => x.id) →
           (broadcastStep ctxBlock RoomType.WORLD c4Room msgBob).1.messages
             = c4Room.messages ++ [msgBob])
       ∧ (∀ x ∈ visibleMessages ctxBlock.blockedUsers ""
             (broadcastStep ctxBlock RoomType.WORLD c4Room msgBob).1.messages,
           x.sender ≠ msgBob.sender)) :=
  ⟨by decide, c7_blocked_sender ctxBlock RoomType.WORLD c4Room "" msgBob (by decide)⟩

/-- C4 counterexample: a redelivered message (id already present) for
which the whole notification condition of the claim holds — background
room, foreign sender, unmuted, unblocked — yet the unread count does not
increase, because the dedup check precedes the policy. -/
theorem c4_counterexample :
    ¬ ((ctx0.activeRoom ≠ RoomType.WORLD ∧ msg1.isMe = false
        ∧ c4Room.muted = false ∧ msg1.sender ∉ ctx0.blockedUsers) →
       (broadcastStep ctx0 RoomType.WORLD c4Room msg1).1.unreadCount
         = c4Room.unreadCount + 1) := by
  decide

/-- C4 (amended): the unread count increases by exactly 1 when the
arriving message is not already present by id AND the room is not the
foreground room AND the sender is not the user AND the room is not muted
AND the sender is not blocked; in every other case — the already-present
case included — it is unchanged. -/
theorem c4_unread_policy (ctx : ListenerCtx) (rt : RoomType)
    (room : ChatRoom) (m : Message) :
    ((m.id ∉ room.messages.map (fun x => x.id) ∧ ctx.activeRoom ≠ rt
      ∧ m.isMe = false ∧ room.muted = false ∧ m.sender ∉ ctx.blockedUsers) →
      (broadcastStep ctx rt room m).1.unreadCount = room.unreadCount + 1)
    ∧ ((m.id ∈ room.messages.map (fun x => x.id) ∨ ctx.activeRoom = rt
        ∨ m.isMe = true ∨ room.muted = true ∨ m.sender ∈ ctx.blockedUsers) →
      (broadcastStep ctx rt room m).1.unreadCount = room.unreadCount) := by
  constructor
  · rintro ⟨hfresh, hact, hme, hmut, hblk⟩
    have hany : room.messages.any (fun x => x.id == m.id) = false := by
      rcases h : room.messages.any (fun x => x.id == m.id) with _ | _
      · rfl
      · exact absurd ((any_id_iff_mem room.messages m.id).mp h) hfresh
    have hcont : ctx.blockedUsers.contains m.sender = false := by
      rcases h : ctx.blockedUsers.contains m.sender with _ | _
      · rfl
      · exact absurd (List.elem_iff.mp h) hblk
    have hbeq : (ctx.activeRoom == rt) = false := by
      simpa using hact
    unfold broadcastStep
    simp [hany, hbeq, hme, hmut, hcont]
    exact hblk
  · intro hcase
    unfold broadcastStep
    split
    · rfl
    · rename_i hany
      rcases hcase with h | h | h | h | h
      · exact absurd ((any_id_iff_mem room.messages m.id).mpr h)
          (by simpa using hany)
      · simp [h, beq_iff_eq]
      · simp [h]
      · simp [h]
      · simp [List.elem_iff.mpr h, h]

/-- Witness for C4 (amended): a fresh qualifying message increments the
empty world room from 0 to 1; the redelivered one leaves it unchanged. -/
theorem c4_unread_policy_witness :
    (broadcastStep ctx0 RoomType.WORLD roomW msg1).1.unreadCount
      = roomW.unreadCount + 1
    ∧ (broadcastStep ctx0 RoomType.WORLD c4Room msg1).1.unreadCount
      = c4Room.unreadCount :=
  ⟨(c4_unread_policy ctx0 RoomType.WORLD roomW msg1).1
     ⟨by decide, by decide, rfl, rfl, by decide⟩,
   (c4_unread_policy ctx0 RoomType.WORLD c4Room msg1).2
     (Or.inl (by decide))⟩

/-- Unfolding lemma for `List.lookup` on a cons cell, with a
propositional condition. -/
theorem lookup_cons (x a : String) (b : UserDoc)
    (l : List (String × UserDoc)) :
    List.lookup x ((a, b) :: l) = if x = a then some b else List.lookup x l := by
  by_cases h : x = a
  · have hb : (x == a) = true := by simp [h]
    simp [List.lookup, hb, h]
  · have hb : (x == a) = false := by simp [h]
    simp [List.lookup, hb, h]

/-- Looking a key up after the pointwise update that `updateUser`
performs: the updated key maps through `f`, every other key is
untouched. -/
theorem lookup_updateMap (users : List (String × UserDoc)) (k x : String)
    (f : UserDoc → UserDoc) :
    (users.map (fun p => if p.1 = k then (p.1, f p.2) else p)).lookup x
      = if x = k then (users.lookup x).map f else users.lookup x := by
  induction users with
  | nil => simp [List.lookup]
  | cons p ps ih =>
    obtain ⟨a, b⟩ := p
    by_cases hak : a = k
    · subst hak
      by_cases hxa : x = a
      · subst hxa
        simp [List.map_cons, lookup_cons, ih]
      · simp [List.map_cons, lookup_cons, hxa, ih]
    · by_cases hxa : x = a
      · subst hxa
        simp [List.map_cons, lookup_cons, hak, ih]
      · simp [List.map_cons, lookup_cons, hak, hxa, ih]

/-- `updateUser` succeeds exactly on present keys and yields the mapped
association list. -/
theorem updateUser_of_lookup (users : List (String × UserDoc))
    (k : String) (f : UserDoc → UserDoc) (d : UserDoc)
    (h : users.lookup k = some d) :
    updateUser users k f
      = some (users.map (fun p => if p.1 = k then (p.1, f p.2) else p)) := by
  simp [updateUser, h]

/-- C1 counterexample: with another user waiting in the queue, the real
transaction takes the matched branch — yet the sessions collection stays
empty, so no Session record listing the two participants is ever
created. -/
theorem c1_counterexample :
    (startSearchTx c1Store "A" profA "S" 100).map (fun r => r.2)
      = some (Outcome.matchedNow profB "S")
    ∧ (startSearchTx c1Store "A" profA "S" 100).map (fun r => r.1.sessions)
      = some [] := by
  decide

/-- Full description of the matched branch of the enqueue transaction:
candidate deleted, both pointers set, sessions untouched. -/
theorem matched_branch_spec (s : Store) (uid : String) (prof : UserProfile)
    (sid : String) (now : Nat) (cand : QueueEntry) (pd md : UserDoc)
    (hearliest : earliestEntry s.queue = some cand)
    (hne : cand.userId ≠ uid) (hne0 : cand.userId ≠ "")
    (hpd : s.users.lookup cand.userId = some pd)
    (hmd : s.users.lookup uid = some md) :
    ∃ s2, startSearchTx s uid prof sid now
        = some (s2, Outcome.matchedNow cand.profile sid)
      ∧ s2.queue = s.queue.filter (fun e => e.userId != cand.userId)
      ∧ s2.users.lookup cand.userId
          = some { pd with status := "matched", sessionId := some sid,
                           partnerProfile := some prof }
      ∧ s2.users.lookup uid
          = some { md with status := "matched", sessionId := some sid,
                           partnerProfile := some cand.profile }
      ∧ s2.sessions = s.sessions := by
  have hdec : txDecision s uid = some cand := by
    simp [txDecision, hearliest, hne, hne0]
  have hu1 := updateUser_of_lookup s.users cand.userId
    (matchPointer sid prof) pd hpd
  set users1 := s.users.map (fun p => if p.1 = cand.userId then
    (p.1, matchPointer sid prof p.2) else p) with husers1
  have hmd1 : users1.lookup uid = some md := by
    rw [husers1, lookup_updateMap]
    simp [Ne.symm hne, hmd]
  have hu2 := updateUser_of_lookup users1 uid
    (matchPointer sid cand.profile) md hmd1
  refine ⟨{ s with
      queue := s.queue.filter (fun e => e.userId != cand.userId),
      users := users1.map (fun p => if p.1 = uid then
        (p.1, matchPointer sid cand.profile p.2) else p) },
    ?_, rfl, ?_, ?_, rfl⟩
  · simp only [startSearchTx, hdec, applyMatchWrites, hu1, hu2]
    rfl
  · rw [lookup_updateMap, if_neg hne, husers1, lookup_updateMap, if_pos rfl, hpd]
    rfl
  · rw [lookup_updateMap, if_pos rfl, hmd1]
    rfl

/-- C1 (amended): when the queue holds a candidate of another user, the
transaction deletes the candidate QueueEntry and sets both
SessionPointers to status matched with the same fresh sessionId and each
other as partnerProfile — but it creates no Session record: the sessions
collection is exactly what it was before. -/
theorem c1_matched_branch (s : Store) (uid : String) (prof : UserProfile)
    (sid : String) (now : Nat) (cand : QueueEntry) (pd md : UserDoc)
    (hearliest : earliestEntry s.queue = some cand)
    (hne : cand.userId ≠ uid) (hne0 : cand.userId ≠ "")
    (hpd : s.users.lookup cand.userId = some pd)
    (hmd : s.users.lookup uid = some md) :
    ∃ s2, startSearchTx s uid prof sid now
        = some (s2, Outcome.matchedNow cand.profile sid)
      ∧ s2.queue = s.queue.filter (fun e => e.userId != cand.userId)
      ∧ s2.users.lookup cand.userId
          = some { pd with status := "matched", sessionId := some sid,
                           partnerProfile := some prof }
      ∧ s2.users.lookup uid
          = some { md with status := "matched", sessionId := some sid,
                           partnerProfile := some cand.profile }
      ∧ s2.sessions = s.sessions :=
  matched_branch_spec s uid prof sid now cand pd md hearliest hne hne0 hpd hmd

/-- Witness for C1 (amended) on the concrete two-user store. -/
theorem c1_matched_branch_witness :
    ∃ s2, startSearchTx c1Store "A" profA "S" 100
        = some (s2, Outcome.matchedNow profB "S")
      ∧ s2.queue = c1Store.queue.filter (fun e => e.userId != "B")
      ∧ s2.users.lookup "B"
          = some { status := "matched", sessionId := some "S",
                   partnerProfile := some profA, profile := some profB }
      ∧ s2.users.lookup "A"
          = some { status := "matched", sessionId := some "S",
                   partnerProfile := some profB, profile := some profA }
      ∧ s2.sessions = c1Store.sessions :=
  c1_matched_branch c1Store "A" profA "S" 100 ⟨"B", 5, profB⟩
    ⟨"searching", none, none, some profB⟩ ⟨"searching", none, none, some profA⟩
    (by decide) (by decide) (by decide) (by decide) (by decide)

/-- A queue entry that sorts before another has the smaller or equal
timestamp. -/
theorem entryBefore_ts {a b : QueueEntry} (h : entryBefore a b = true) :
    a.timestamp ≤ b.timestamp := by
  rcases Bool.or_eq_true_iff.mp h with h1 | h2
  · exact Nat.le_of_lt (by simpa using h1)
  · exact Nat.le_of_eq (by simpa using (Bool.and_eq_true_iff.mp h2).1)

/-- A queue entry that does not sort before another has the larger or
equal timestamp. -/
theorem entryBefore_ts_of_false {a b : QueueEntry}
    (h : entryBefore a b = false) : b.timestamp ≤ a.timestamp := by
  have h1 : ¬ a.timestamp < b.timestamp := by
    intro hlt
    rw [entryBefore, decide_eq_true hlt] at h
    simp at h
  exact Nat.le_of_not_lt h1

/-- An empty `limit(1)` read means an empty queue. -/
theorem earliestEntry_eq_none {q : List QueueEntry}
    (h : earliestEntry q = none) : q = [] := by
  cases q with
  | nil => rfl
  | cons y ys =>
    rcases h2 : earliestEntry ys with _ | b
    · have hx : some y = none := by rw [earliestEntry, h2] at h; exact h
      cases hx
    · have hif : (if entryBefore b y = true then some b else some y)
          = none := by rw [earliestEntry, h2] at h; exact h
      split at hif <;> cases hif

/-- The document returned by the `limit(1)` read has the minimal
timestamp of the whole queue. -/
theorem earliestEntry_min :
    ∀ (q : List QueueEntry) (cand : QueueEntry), earliestEntry q = some cand →
      ∀ e ∈ q, cand.timestamp ≤ e.timestamp := by
  intro q
  induction q with
  | nil => intro cand h; simp [earliestEntry] at h
  | cons x xs ih =>
    intro cand h e he
    rcases hxs : earliestEntry xs with _ | b
    · have hx : some x = some cand := by rw [earliestEntry, hxs] at h; exact h
      obtain rfl : x = cand := Option.some.inj hx
      rcases List.mem_cons.mp he with rfl | hmem
      · exact Nat.le_refl _
      · rw [earliestEntry_eq_none hxs] at hmem
        cases hmem
    · have hif : (if entryBefore b x = true then some b else some x)
          = some cand := by rw [earliestEntry, hxs] at h; exact h
      rcases hbx : entryBefore b x with _ | _ <;> rw [hbx] at hif <;>
        simp at hif
      · obtain rfl := hif
        rcases List.mem_cons.mp he with rfl | hmem
        · exact Nat.le_refl _
        · exact Nat.le_trans (entryBefore_ts_of_false hbx) (ih b hxs e hmem)
      · obtain rfl := hif
        rcases List.mem_cons.mp he with rfl | hmem
        · exact entryBefore_ts hbx
        · exact ih b hxs e hmem

/-- C3 counterexample: the queue holds the entry of another user B at
timestamp 2, but the entry of the caller A at timestamp 1 is the earliest,
so the `limit(1)` read returns only the caller and the transaction takes
the insert-and-wait branch. -/
theorem c3_counterexample :
    (∃ e ∈ c3Store.queue, e.userId ≠ "A")
    ∧ (startSearchTx c3Store "A" profA "S" 50).map (fun r => r.2)
        = some Outcome.waiting :=
  ⟨⟨⟨"B", 2, profB⟩, by decide, by decide⟩, by decide⟩

/-- C3 (amended): enqueue reads only the single queue entry with the
globally minimal (timestamp, id) — that entry has the earliest
enqueuedAt among all entries — and matches it iff it does not belong to
the caller; when the own entry of the caller is the earliest, the
insert-and-wait branch is taken even though entries of other users
exist. -/
theorem c3_candidate_rule (s : Store) (uid : String) (prof : UserProfile)
    (sid : String) (now : Nat) (cand : QueueEntry)
    (hearliest : earliestEntry s.queue = some cand) :
    (∀ e ∈ s.queue, cand.timestamp ≤ e.timestamp)
    ∧ (cand.userId = uid →
        (startSearchTx s uid prof sid now).map (fun r => r.2)
          = some Outcome.waiting)
    ∧ (cand.userId ≠ uid → cand.userId ≠ "" →
        ∀ pd md, s.users.lookup cand.userId = some pd →
          s.users.lookup uid = some md →
          (startSearchTx s uid prof sid now).map (fun r => r.2)
            = some (Outcome.matchedNow cand.profile sid)) := by
  refine ⟨earliestEntry_min s.queue cand hearliest, ?_, ?_⟩
  · intro heq
    simp [startSearchTx, txDecision, hearliest, heq]
  · intro hne hne0 pd md hpd hmd
    obtain ⟨s2, htx, -, -, -, -⟩ :=
      matched_branch_spec s uid prof sid now cand pd md hearliest hne hne0 hpd hmd
    simp [htx]

/-- Witness for C3 (amended) on the two-entry store where the caller owns
the earliest entry. -/
theorem c3_candidate_rule_witness :
    earliestEntry c3Store.queue = some ⟨"A", 1, profA⟩
    ∧ ((∀ e ∈ c3Store.queue, (1 : Nat) ≤ e.timestamp)
       ∧ ((⟨"A", 1, profA⟩ : QueueEntry).userId = "A" →
           (startSearchTx c3Store "A" profA "S" 50).map (fun r => r.2)
             = some Outcome.waiting)
       ∧ ((⟨"A", 1, profA⟩ : QueueEntry).userId ≠ "A" →
           (⟨"A", 1, profA⟩ : QueueEntry).userId ≠ "" →
           ∀ pd md, c3Store.users.lookup "A" = some pd →
             c3Store.users.lookup "A" = some md →
             (startSearchTx c3Store "A" profA "S" 50).map (fun r => r.2)
               = some (Outcome.matchedNow profA "S"))) :=
  ⟨by decide, c3_candidate_rule c3Store "A" profA "S" 50 ⟨"A", 1, profA⟩ (by decide)⟩

/-- C2: exhibit of the matchmaking race bug. The transaction body reads
its candidate with a plain `getDocs` query (src/App.tsx:413) instead of a
transactional read, so Firestore validates no read set at commit time:
when B and C both read the queue while it still holds the single entry of
A and then commit one after the other, both commits succeed — deleting an
absent queue doc is a no-op and both `transaction.update` calls find
their docs. In the final store B is matched into session S1 with partner
A while C is matched into session S2 with the same partner A (and the
pointer of A names only C): the same partner entry produced two sessions
and the result is not a perfect matching, contradicting the claim the
spec makes and the code intends. -/
theorem c2_double_match_bug :
    raceFinal.map (fun st => st.users.lookup "B")
      = some (some ⟨"matched", some "S1", some profA, some profB⟩)
    ∧ raceFinal.map (fun st => st.users.lookup "C")
      = some (some ⟨"matched", some "S2", some profA, some profC⟩)
    ∧ raceFinal.map (fun st => st.users.lookup "A")
      = some (some ⟨"matched", some "S2", some profC, some profA⟩)
    ∧ raceStore.queue = [⟨"A", 1, profA⟩] := by
  decide

/-- One broadcast step keeps the message ids pairwise distinct. -/
theorem broadcastStep_ids_nodup (ctx : ListenerCtx) (rt : RoomType)
    (room : ChatRoom) (m : Message)
    (h : (room.messages.map (fun x => x.id)).Nodup) :
    ((broadcastStep ctx rt room m).1.messages.map (fun x => x.id)).Nodup := by
  rw [broadcastStep_messages]
  split
  · exact h
  · rename_i hany
    have hnm : m.id ∉ room.messages.map (fun x => x.id) := fun hm =>
      hany ((any_id_iff_mem _ _).mpr hm)
    rw [List.map_append]
    simp [List.nodup_append, h, hnm]

/-- One broadcast step never drops an id that is already present. -/
theorem broadcastStep_ids_mem (ctx : ListenerCtx) (rt : RoomType)
    (room : ChatRoom) (m : Message) (x : String)
    (h : x ∈ room.messages.map (fun y => y.id)) :
    x ∈ (broadcastStep ctx rt room m).1.messages.map (fun y => y.id) := by
  rw [broadcastStep_messages]
  split
  · exact h
  · rw [List.map_append]
    exact List.mem_append_left _ h

/-- After a broadcast step, the delivered id is present. -/
theorem broadcastStep_ids_new (ctx : ListenerCtx) (rt : RoomType)
    (room : ChatRoom) (m : Message) :
    m.id ∈ (broadcastStep ctx rt room m).1.messages.map (fun y => y.id) := by
  rw [broadcastStep_messages]
  split
  · exact (any_id_iff_mem _ _).mp (by assumption)
  · rw [List.map_append]
    exact List.mem_append_right _ (by simp)

/-- One one-on-one step keeps the message ids pairwise distinct. -/
theorem oneOnOneStep_ids_nodup (room : ChatRoom) (m : Message)
    (h : (room.messages.map (fun x => x.id)).Nodup) :
    ((oneOnOneStep room m).messages.map (fun x => x.id)).Nodup := by
  have hsub : List.Sublist ((room.messages.filter (fun x => x.id != m.id)).map
      (fun x => x.id)) (room.messages.map (fun x => x.id)) :=
    (List.filter_sublist _).map _
  have hnodup : ((room.messages.filter (fun x => x.id != m.id)).map
      (fun x => x.id)).Nodup := h.sublist hsub
  have hnm : m.id ∉ (room.messages.filter (fun x => x.id != m.id)).map
      (fun x => x.id) := by
    intro hm
    rcases List.mem_map.mp hm with ⟨y, hy, hyid⟩
    have := (List.mem_filter.mp hy).2
    rw [hyid] at this
    simp at this
  show ((room.messages.filter (fun x => x.id != m.id) ++ [m]).map
      (fun x => x.id)).Nodup
  rw [List.map_append]
  simp [List.nodup_append, hnodup, hnm]

/-- One one-on-one step never drops an id that is already present. -/
theorem oneOnOneStep_ids_mem (room : ChatRoom) (m : Message) (x : String)
    (h : x ∈ room.messages.map (fun y => y.id)) :
    x ∈ (oneOnOneStep room m).messages.map (fun y => y.id) := by
  show x ∈ (room.messages.filter (fun y => y.id != m.id) ++ [m]).map
      (fun y => y.id)
  rw [List.map_append]
  by_cases hx : x = m.id
  · exact List.mem_append_right _ (by simp [hx])
  · rcases List.mem_map.mp h with ⟨y, hy, hyid⟩
    refine List.mem_append_left _ (List.mem_map.mpr ⟨y, List.mem_filter.mpr
      ⟨hy, ?_⟩, hyid⟩)
    subst hyid
    simpa using hx

/-- After a one-on-one step, the delivered id is present. -/
theorem oneOnOneStep_ids_new (room : ChatRoom) (m : Message) :
    m.id ∈ (oneOnOneStep room m).messages.map (fun y => y.id) := by
  show m.id ∈ (room.messages.filter (fun y => y.id != m.id) ++ [m]).map
      (fun y => y.id)
  rw [List.map_append]
  exact List.mem_append_right _ (by simp)

/-- A broadcast delivery run keeps the ids pairwise distinct. -/
theorem runBroadcast_nodup (ctx : ListenerCtx) (rt : RoomType) :
    ∀ (ms : List Message) (room : ChatRoom),
      (room.messages.map (fun x => x.id)).Nodup →
      ((runBroadcast ctx rt ms room).messages.map (fun x => x.id)).Nodup := by
  intro ms
  induction ms with
  | nil => intro room h; exact h
  | cons m ms ih =>
    intro room h
    exact ih _ (broadcastStep_ids_nodup ctx rt room m h)

/-- A broadcast delivery run never drops a present id. -/
theorem runBroadcast_mem (ctx : ListenerCtx) (rt : RoomType) :
    ∀ (ms : List Message) (room : ChatRoom) (x : String),
      x ∈ room.messages.map (fun y => y.id) →
      x ∈ (runBroadcast ctx rt ms room).messages.map (fun y => y.id) := by
  intro ms
  induction ms with
  | nil => intro room x h; exact h
  | cons m ms ih =>
    intro room x h
    exact ih _ x (broadcastStep_ids_mem ctx rt room m x h)

/-- Every id delivered by a broadcast run is present afterwards. -/
theorem runBroadcast_delivered (ctx : ListenerCtx) (rt : RoomType) :
    ∀ (ms : List Message) (room : ChatRoom) (m : Message), m ∈ ms →
      m.id ∈ (runBroadcast ctx rt ms room).messages.map (fun y => y.id) := by
  intro ms
  induction ms with
  | nil => intro room m h; cases h
  | cons a ms ih =>
    intro room m h
    rcases List.mem_cons.mp h with rfl | hmem
    · exact runBroadcast_mem ctx rt ms _ m.id
        (broadcastStep_ids_new ctx rt room m)
    · exact ih _ m hmem

/-- A one-on-one delivery run keeps the ids pairwise distinct. -/
theorem runOneOnOne_nodup :
    ∀ (ms : List Message) (room : ChatRoom),
      (room.messages.map (fun x => x.id)).Nodup →
      ((runOneOnOne ms room).messages.map (fun x => x.id)).Nodup := by
  intro ms
  induction ms with
  | nil => intro room h; exact h
  | cons m ms ih =>
    intro room h
    exact ih _ (oneOnOneStep_ids_nodup room m h)

/-- A one-on-one delivery run never drops a present id. -/
theorem runOneOnOne_mem :
    ∀ (ms : List Message) (room : ChatRoom) (x : String),
      x ∈ room.messages.map (fun y => y.id) →
      x ∈ (runOneOnOne ms room).messages.map (fun y => y.id) := by
  intro ms
  induction ms with
  | nil => intro room x h; exact h
  | cons m ms ih =>
    intro room x h
    exact ih _ x (oneOnOneStep_ids_mem room m x h)

/-- Every id delivered by a one-on-one run is present afterwards. -/
theorem runOneOnOne_delivered :
    ∀ (ms : List Message) (room : ChatRoom) (m : Message), m ∈ ms →
      m.id ∈ (runOneOnOne ms room).messages.map (fun y => y.id) := by
  intro ms
  induction ms with
  | nil => intro room m h; cases h
  | cons a ms ih =>
    intro room m h
    rcases List.mem_cons.mp h with rfl | hmem
    · exact runOneOnOne_mem ms _ m.id (oneOnOneStep_ids_new room m)
    · exact ih _ m hmem

/-- C5: starting from any room whose message ids are pairwise distinct,
any delivery sequence — redeliveries of already-present ids included —
leaves both the broadcast and the one-on-one room with pairwise distinct
message ids, and every delivered id (a twice-delivered one included)
appears in exactly one entry. -/
theorem c5_dedup (ctx : ListenerCtx) (rt : RoomType) (ms : List Message)
    (room : ChatRoom) (h : (room.messages.map (fun x => x.id)).Nodup) :
    ((runBroadcast ctx rt ms room).messages.map (fun x => x.id)).Nodup
    ∧ ((runOneOnOne ms room).messages.map (fun x => x.id)).Nodup
    ∧ (∀ m ∈ ms, ((runBroadcast ctx rt ms room).messages.map
        (fun x => x.id)).count m.id = 1)
    ∧ (∀ m ∈ ms, ((runOneOnOne ms room).messages.map
        (fun x => x.id)).count m.id = 1) := by
  refine ⟨runBroadcast_nodup ctx rt ms room h, runOneOnOne_nodup ms room h,
    ?_, ?_⟩
  · intro m hm
    exact List.count_eq_one_of_mem (runBroadcast_nodup ctx rt ms room h)
      (runBroadcast_delivered ctx rt ms room m hm)
  · intro m hm
    exact List.count_eq_one_of_mem (runOneOnOne_nodup ms room h)
      (runOneOnOne_delivered ms room m hm)

/-- Witness for C5: the message m1 delivered twice into the empty room
(scenario B) ends up as exactly one entry in both room kinds. -/
theorem c5_dedup_witness :
    (roomW.messages.map (fun x => x.id)).Nodup
    ∧ (((runBroadcast ctx0 RoomType.WORLD [msg1, msg1] roomW).messages.map
          (fun x => x.id)).Nodup
       ∧ ((runOneOnOne [msg1, msg1] roomW).messages.map
          (fun x => x.id)).Nodup
       ∧ (∀ m ∈ [msg1, msg1],
            ((runBroadcast ctx0 RoomType.WORLD [msg1, msg1] roomW).messages.map
              (fun x => x.id)).count m.id = 1)
       ∧ (∀ m ∈ [msg1, msg1],
            ((runOneOnOne [msg1, msg1] roomW).messages.map
              (fun x => x.id)).count m.id = 1)) :=
  ⟨by decide, c5_dedup ctx0 RoomType.WORLD [msg1, msg1] roomW (by decide)⟩

/-- Timestamp order on messages is transitive. -/
instance : IsTrans Message (fun a b => a.timestamp ≤ b.timestamp) :=
  ⟨fun _ _ _ => Nat.le_trans⟩

/-- The executable sortedness check agrees with pairwise timestamp
order. -/
theorem sortedByTs_iff_pairwise (ms : List Message) :
    sortedByTs ms = true
      ↔ List.Pairwise (fun a b => a.timestamp ≤ b.timestamp) ms := by
  rw [← List.chain'_iff_pairwise]
  induction ms with
  | nil => simp [sortedByTs]
  | cons a t ih =>
    cases t with
    | nil => simp [sortedByTs]
    | cons b u =>
      rw [sortedByTs, List.chain'_cons, Bool.and_eq_true, decide_eq_true_iff,
        ih]

/-- C6 counterexample: with both runs ascending by timestamp (the second
one redelivering the present ids around the late message m3), the
broadcast room ends with timestamps 100, 200, 150 — an adjacent pair out
of order — and in the one-on-one room merely redelivering m1 after m2
moves it behind m2. -/
theorem c6_counterexample :
    sortedByTs run1 = true
    ∧ sortedByTs run2 = true
    ∧ sortedByTs (runBroadcast ctx0 RoomType.WORLD run2
        (runBroadcast ctx0 RoomType.WORLD run1 roomW)).messages = false
    ∧ (runBroadcast ctx0 RoomType.WORLD run2
        (runBroadcast ctx0 RoomType.WORLD run1 roomW)).messages.map
          (fun m => m.timestamp) = [100, 200, 150]
    ∧ sortedByTs [msg1] = true
    ∧ sortedByTs (runOneOnOne [msg1]
        (runOneOnOne [msg1, msg2] roomW)).messages = false := by
  decide

/-- C6 (amended): a delivery keeps the adjacent timestamps of a room
non-decreasing provided every message already in the room has a
timestamp at most that of the delivered message — in particular for any
single subscription run over a fresh room delivered in ascending
timestamp order with no redelivered older ids. A re-subscription run can
break the order: in the broadcast room by appending a
not-yet-present message older than the room tail, in the one-on-one room
by moving a redelivered id to the end. -/
theorem c6_order (ctx : ListenerCtx) (rt : RoomType) (room : ChatRoom)
    (m : Message) (hs : sortedByTs room.messages = true)
    (hle : ∀ x ∈ room.messages, x.timestamp ≤ m.timestamp) :
    sortedByTs (broadcastStep ctx rt room m).1.messages = true
    ∧ sortedByTs (oneOnOneStep room m).messages = true := by
  rw [sortedByTs_iff_pairwise] at hs
  constructor
  · rw [broadcastStep_messages]
    split
    · rw [sortedByTs_iff_pairwise]
      exact hs
    · rw [sortedByTs_iff_pairwise, List.pairwise_append]
      exact ⟨hs, List.pairwise_singleton _ _, by
        intro x hx y hy
        rw [List.mem_singleton.mp hy]
        exact hle x hx⟩
  · rw [sortedByTs_iff_pairwise]
    show List.Pairwise _ (room.messages.filter (fun x => x.id != m.id) ++ [m])
    rw [List.pairwise_append]
    refine ⟨hs.sublist (List.filter_sublist _), List.pairwise_singleton _ _, ?_⟩
    intro x hx y hy
    rw [List.mem_singleton.mp hy]
    exact hle x (List.mem_of_mem_filter hx)

/-- Witness for C6 (amended): delivering m2 (timestamp 200) into the room
holding only m1 (timestamp 100) keeps both room kinds sorted. -/
theorem c6_order_witness :
    sortedByTs c4Room.messages = true
    ∧ (∀ x ∈ c4Room.messages, x.timestamp ≤ msg2.timestamp)
    ∧ (sortedByTs (broadcastStep ctx0 RoomType.WORLD c4Room msg2).1.messages
         = true
       ∧ sortedByTs (oneOnOneStep c4Room msg2).messages = true) :=
  ⟨by decide, by decide,
   c6_order ctx0 RoomType.WORLD c4Room msg2 (by decide) (by decide)⟩

end Plyxor
